import Mathlib

/-!
Verification of the text-summarization service (`src/main.py`, `src/middleware.py`).

Texts are modelled as `List Char`; the wall clock is an explicit parameter.
Every definition is a direct translation of the corresponding Python code,
cited by file and line in its doc comment.
-/

/-- Python whitespace test used by `str.split()` / `str.strip()`, restricted to
the ASCII whitespace characters: space, tab, newline, carriage return,
vertical tab, form feed. -/
def pyIsSpace (c : Char) : Bool :=
  c == ' ' || c == '\t' || c == '\n' || c == '\r' || c == '\x0b' || c == '\x0c'

/-- Model of Python `text.split()` (no separator argument): splits on runs of
whitespace and never yields empty tokens.  Used by `extract_words`
(`src/main.py:67`). -/
def pySplit : List Char → List (List Char)
  | [] => []
  | c :: cs =>
    if pyIsSpace c then
      pySplit cs
    else
      (c :: cs.takeWhile (fun d => !pyIsSpace d)) ::
        pySplit (cs.dropWhile (fun d => !pyIsSpace d))
termination_by s => s.length
decreasing_by
  · simp only [List.length_cons]; omega
  · have h := (List.dropWhile_sublist (fun d => !pyIsSpace d) (l := cs)).length_le
    simp only [List.length_cons]; omega

/-- Model of Python `" ".join(words)` (`src/main.py:126`). -/
def sjoin : List (List Char) → List Char
  | [] => []
  | [w] => w
  | w :: ws => w ++ ' ' :: sjoin ws

/-- `extract_words` (`src/main.py:57-67`):
`[word for word in text.split() if word]`. -/
def extract_words (text : List Char) : List (List Char) :=
  (pySplit text).filter (fun word => !word.isEmpty)

/-- `get_first_n_words` (`src/main.py:70-81`): `words[:n]`.  The Python
default argument is `n = 10`; callers here always pass `n` explicitly. -/
def get_first_n_words (words : List (List Char)) (n : Nat) : List (List Char) :=
  words.take n

/-- Model of Python `text.strip()`: drop leading and trailing whitespace
(used by the validator at `src/main.py:45`). -/
def pyStrip (s : List Char) : List Char :=
  (((s.dropWhile pyIsSpace).reverse).dropWhile pyIsSpace).reverse

/-- `SummaryRequest` validation (`src/main.py:36-47`): pydantic first checks
`min_length=1` on `text`, then `validate_text` requires `text.strip()` to be
non-empty; either failure is a pydantic `ValidationError`, surfaced by
FastAPI as an HTTP 422 response before the handler body runs. -/
def summaryRequestValidate (text : List Char) : Except String (List Char) :=
  if text.length < 1 then
    .error "String should have at least 1 character"
  else if (pyStrip text).isEmpty then
    .error "Text cannot be empty or only whitespace"
  else
    .ok text

/-- The pure text pipeline of the `create_summary` try-block
(`src/main.py:118-126`): split into words, take the first 10, re-join with
single spaces. -/
def summarize (text : List Char) : List Char :=
  sjoin (get_first_n_words (extract_words text) 10)

-- ### Tokenization lemmas

theorem pySplit_nil : pySplit [] = [] := by
  simp [pySplit]

theorem pySplit_cons_space {c : Char} (cs : List Char) (h : pyIsSpace c = true) :
    pySplit (c :: cs) = pySplit cs := by
  rw [pySplit, if_pos h]

theorem pySplit_cons_nonspace {c : Char} (cs : List Char) (h : pyIsSpace c = false) :
    pySplit (c :: cs) =
      (c :: cs.takeWhile (fun d => !pyIsSpace d)) ::
        pySplit (cs.dropWhile (fun d => !pyIsSpace d)) := by
  rw [pySplit, if_neg (by simp [h])]

/-- Every token produced by `pySplit` is non-empty and contains no
whitespace character. -/
theorem pySplit_tokens_valid (s : List Char) :
    ∀ w ∈ pySplit s, w ≠ [] ∧ ∀ c ∈ w, pyIsSpace c = false := by
  induction s using pySplit.induct with
  | case1 => simp [pySplit_nil]
  | case2 c cs h ih =>
    rw [pySplit_cons_space cs h]; exact ih
  | case3 c cs h ih =>
    have hc : pyIsSpace c = false := by
      cases hcc : pyIsSpace c with
      | false => rfl
      | true => exact absurd hcc h
    rw [pySplit_cons_nonspace cs hc]
    intro w hw
    rcases List.mem_cons.mp hw with hw | hw
    · subst hw
      refine ⟨by simp, ?_⟩
      intro d hd
      rcases List.mem_cons.mp hd with hd | hd
      · subst hd; exact hc
      · have := List.mem_takeWhile_imp hd
        simpa using this
    · exact ih w hw

/-- `pySplit` of an all-whitespace (or empty) string is empty, and conversely. -/
theorem pySplit_eq_nil_iff (s : List Char) :
    pySplit s = [] ↔ ∀ c ∈ s, pyIsSpace c = true := by
  induction s using pySplit.induct with
  | case1 => simp [pySplit_nil]
  | case2 c cs h ih =>
    rw [pySplit_cons_space cs h]
    simp only [List.mem_cons]
    constructor
    · intro hnil d hd
      rcases hd with hd | hd
      · subst hd; exact h
      · exact ih.mp hnil d hd
    · intro hall
      exact ih.mpr (fun d hd => hall d (Or.inr hd))
  | case3 c cs h ih =>
    have hc : pyIsSpace c = false := by
      cases hcc : pyIsSpace c with
      | false => rfl
      | true => exact absurd hcc h
    rw [pySplit_cons_nonspace cs hc]
    simp only [List.cons_ne_nil, false_iff]
    intro hall
    have := hall c (List.mem_cons_self c cs)
    rw [hc] at this
    exact Bool.false_ne_true this

theorem takeWhile_of_all_append {α : Type} (p : α → Bool) (cs r : List α) (x : α)
    (h : ∀ c ∈ cs, p c = true) (hx : p x = false) :
    List.takeWhile p (cs ++ x :: r) = cs := by
  induction cs with
  | nil => simp [List.takeWhile, hx]
  | cons c cs ih =>
    have hc := h c (List.mem_cons_self c cs)
    simp only [List.cons_append, List.takeWhile_cons, hc, if_true]
    rw [ih (fun d hd => h d (List.mem_cons_of_mem c hd))]

theorem dropWhile_of_all_append {α : Type} (p : α → Bool) (cs r : List α) (x : α)
    (h : ∀ c ∈ cs, p c = true) (hx : p x = false) :
    List.dropWhile p (cs ++ x :: r) = x :: r := by
  induction cs with
  | nil => simp [List.dropWhile, hx]
  | cons c cs ih =>
    have hc := h c (List.mem_cons_self c cs)
    simp only [List.cons_append, List.dropWhile_cons, hc, if_true]
    exact ih (fun d hd => h d (List.mem_cons_of_mem c hd))

/-- Splitting a single non-empty whitespace-free word gives back that word. -/
theorem pySplit_word (w : List Char) (hne : w ≠ [])
    (hall : ∀ c ∈ w, pyIsSpace c = false) : pySplit w = [w] := by
  cases w with
  | nil => exact absurd rfl hne
  | cons c cs =>
    rw [pySplit_cons_nonspace cs (hall c (List.mem_cons_self c cs))]
    have htake : cs.takeWhile (fun d => !pyIsSpace d) = cs :=
      List.takeWhile_eq_self_iff.mpr
        (fun d hd => by simp [hall d (List.mem_cons_of_mem c hd)])
    have hdrop : cs.dropWhile (fun d => !pyIsSpace d) = [] :=
      List.dropWhile_eq_nil_iff.mpr
        (fun d hd => by simp [hall d (List.mem_cons_of_mem c hd)])
    rw [htake, hdrop, pySplit_nil]

/-- Splitting a word followed by a space peels off exactly that word. -/
theorem pySplit_word_space (w r : List Char) (hne : w ≠ [])
    (hall : ∀ c ∈ w, pyIsSpace c = false) :
    pySplit (w ++ ' ' :: r) = w :: pySplit r := by
  cases w with
  | nil => exact absurd rfl hne
  | cons c cs =>
    have hsp : pyIsSpace ' ' = true := by decide
    rw [List.cons_append, pySplit_cons_nonspace _ (hall c (List.mem_cons_self c cs))]
    have hcs : ∀ d ∈ cs, (fun d => !pyIsSpace d) d = true :=
      fun d hd => by simp [hall d (List.mem_cons_of_mem c hd)]
    rw [takeWhile_of_all_append _ cs r ' ' hcs (by simp [hsp]),
        dropWhile_of_all_append _ cs r ' ' hcs (by simp [hsp]),
        pySplit_cons_space r hsp]

/-- Re-splitting a space-join of non-empty whitespace-free words recovers the
words exactly. -/
theorem pySplit_sjoin (ws : List (List Char))
    (h : ∀ w ∈ ws, w ≠ [] ∧ ∀ c ∈ w, pyIsSpace c = false) :
    pySplit (sjoin ws) = ws := by
  induction ws with
  | nil => simp [sjoin, pySplit_nil]
  | cons w ws ih =>
    cases ws with
    | nil =>
      have hw := h w (List.mem_cons_self w [])
      simpa [sjoin] using pySplit_word w hw.1 hw.2
    | cons x xs =>
      have hw := h w (List.mem_cons_self w (x :: xs))
      show pySplit (w ++ ' ' :: sjoin (x :: xs)) = w :: x :: xs
      rw [pySplit_word_space _ _ hw.1 hw.2,
          ih (fun v hv => h v (List.mem_cons_of_mem w hv))]

/-- The `if word` filter in `extract_words` never removes anything:
`str.split()` yields no empty strings. -/
theorem extract_words_eq_pySplit (text : List Char) :
    extract_words text = pySplit text := by
  unfold extract_words
  exact List.filter_eq_self.mpr
    (fun w hw => by
      have := (pySplit_tokens_valid text w hw).1
      simp [List.isEmpty_iff, this])

-- ### Refinement: `pySplit` computes the maximal whitespace-free runs

/-- Spec-side tokenizer, following the glossary of the specification: a token
is a maximal run of non-whitespace characters.  `List.splitOnP` cuts the
string at every whitespace character, producing (possibly empty) gaps between
consecutive cuts; discarding the empty groups leaves exactly the maximal
non-whitespace runs. -/
def specTokens (s : List Char) : List (List Char) :=
  (s.splitOnP pyIsSpace).filter (fun w => !w.isEmpty)

/-- Tail groups of `List.splitOnP` after the first token. -/
def tailSplit (p : Char → Bool) (cs : List Char) : List (List Char) :=
  match cs.dropWhile (fun d => !p d) with
  | [] => []
  | _ :: r => List.splitOnP p r

theorem dropWhile_head_false {α : Type} (p : α → Bool) (l : List α) (d : α)
    (r : List α) (h : l.dropWhile p = d :: r) : p d = false := by
  induction l with
  | nil => simp [List.dropWhile] at h
  | cons c cs ih =>
    rw [List.dropWhile_cons] at h
    by_cases hc : p c = true
    · rw [if_pos hc] at h; exact ih h
    · rw [if_neg hc] at h
      cases h
      exact Bool.not_eq_true _ |>.mp hc

theorem splitOnP_eq_head_tail (p : Char → Bool) (cs : List Char) :
    cs.splitOnP p = cs.takeWhile (fun d => !p d) :: tailSplit p cs := by
  induction cs with
  | nil => simp [tailSplit, List.dropWhile]
  | cons c cs ih =>
    rw [List.splitOnP_cons]
    by_cases hc : p c = true
    · rw [if_pos hc]
      have ht : (c :: cs).takeWhile (fun d => !p d) = [] := by
        simp [List.takeWhile_cons, hc]
      have hd : tailSplit p (c :: cs) = List.splitOnP p cs := by
        simp [tailSplit, List.dropWhile_cons, hc]
      rw [ht, hd]
    · have hc' : p c = false := Bool.not_eq_true _ |>.mp hc
      rw [if_neg hc, ih, List.modifyHead_cons]
      have ht : (c :: cs).takeWhile (fun d => !p d) =
          c :: cs.takeWhile (fun d => !p d) := by
        simp [List.takeWhile_cons, hc']
      have hd : tailSplit p (c :: cs) = tailSplit p cs := by
        simp [tailSplit, List.dropWhile_cons, hc']
      rw [ht, hd]

/-- The implementation's tokenizer agrees with the specification's
maximal-run tokenizer. -/
theorem pySplit_eq_specTokens (s : List Char) : pySplit s = specTokens s := by
  unfold specTokens
  induction s using pySplit.induct with
  | case1 => simp [pySplit_nil]
  | case2 c cs h ih =>
    rw [pySplit_cons_space cs h, List.splitOnP_cons, if_pos h, List.filter_cons]
    simpa using ih
  | case3 c cs h ih =>
    have hc : pyIsSpace c = false := Bool.not_eq_true _ |>.mp h
    rw [pySplit_cons_nonspace cs hc, List.splitOnP_cons, if_neg h,
        splitOnP_eq_head_tail, List.modifyHead_cons, List.filter_cons]
    simp only [List.isEmpty_cons, Bool.not_false, if_true]
    refine congrArg _ ?_
    rcases hdw : cs.dropWhile (fun d => !pyIsSpace d) with _ | ⟨d, r⟩
    · simp [tailSplit, hdw, pySplit_nil]
    · have hd : pyIsSpace d = true := by
        have := dropWhile_head_false _ cs d r hdw
        simpa using this
      rw [hdw, pySplit_cons_space r hd] at ih
      rw [List.splitOnP_cons, if_pos hd, List.filter_cons] at ih
      simp only [List.isEmpty_nil, Bool.not_true, if_false] at ih
      simpa [tailSplit, hdw, pySplit_cons_space r hd] using ih

-- ### Idempotence of the summarization pipeline

theorem summarize_eq_take (t : List Char) :
    summarize t = sjoin ((pySplit t).take 10) := by
  unfold summarize get_first_n_words
  rw [extract_words_eq_pySplit]

theorem extract_words_summarize (t : List Char) :
    extract_words (summarize t) = (pySplit t).take 10 := by
  rw [summarize_eq_take, extract_words_eq_pySplit]
  exact pySplit_sjoin _
    (fun w hw => pySplit_tokens_valid t w (List.mem_of_mem_take hw))

/-- The summarization pipeline is idempotent. -/
theorem summarize_idem (t : List Char) : summarize (summarize t) = summarize t := by
  show sjoin (get_first_n_words (extract_words (summarize t)) 10) = summarize t
  rw [extract_words_summarize t]
  show sjoin (List.take 10 (List.take 10 (pySplit t))) = summarize t
  rw [List.take_take, Nat.min_self, ← summarize_eq_take]

-- ### Wall-clock values and ISO-8601 formatting

/-- A `datetime.datetime` value carrying `tzinfo=timezone.utc`, as produced by
`datetime.now(timezone.utc)` at `src/main.py:129`. -/
structure PyDateTime where
  year : Nat
  month : Nat
  day : Nat
  hour : Nat
  minute : Nat
  second : Nat
  microsecond : Nat
deriving DecidableEq

/-- The field ranges guaranteed by CPython's `datetime` constructor. -/
def PyDateTime.Valid (d : PyDateTime) : Prop :=
  1 ≤ d.year ∧ d.year ≤ 9999 ∧ 1 ≤ d.month ∧ d.month ≤ 12 ∧
    1 ≤ d.day ∧ d.day ≤ 31 ∧ d.hour ≤ 23 ∧ d.minute ≤ 59 ∧
    d.second ≤ 59 ∧ d.microsecond ≤ 999999

instance (d : PyDateTime) : Decidable d.Valid := by
  unfold PyDateTime.Valid; infer_instance

/-- Decimal digit character. -/
def digitChar : Nat → Char
  | 0 => '0' | 1 => '1' | 2 => '2' | 3 => '3' | 4 => '4'
  | 5 => '5' | 6 => '6' | 7 => '7' | 8 => '8' | _ => '9'

/-- Two-digit zero-padded decimal rendering (for values below 100). -/
def pad2 (n : Nat) : List Char :=
  [digitChar (n / 10), digitChar (n % 10)]

/-- Four-digit zero-padded decimal rendering (for values below 10000). -/
def pad4 (n : Nat) : List Char :=
  [digitChar (n / 1000), digitChar (n / 100 % 10), digitChar (n / 10 % 10),
   digitChar (n % 10)]

/-- Six-digit zero-padded decimal rendering (for values below 1000000). -/
def pad6 (n : Nat) : List Char :=
  [digitChar (n / 100000), digitChar (n / 10000 % 10), digitChar (n / 1000 % 10),
   digitChar (n / 100 % 10), digitChar (n / 10 % 10), digitChar (n % 10)]

/-- Model of `datetime.now(timezone.utc).isoformat()` (`src/main.py:129`):
`YYYY-MM-DDTHH:MM:SS[.ffffff]+00:00`.  CPython omits the fractional part
exactly when `microsecond` is zero, and an aware UTC datetime renders its
offset as `+00:00`. -/
def isoformatUTC (d : PyDateTime) : List Char :=
  pad4 d.year ++ '-' :: pad2 d.month ++ '-' :: pad2 d.day ++ 'T' :: pad2 d.hour
    ++ ':' :: pad2 d.minute ++ ':' :: pad2 d.second
    ++ (if d.microsecond = 0 then [] else '.' :: pad6 d.microsecond)
    ++ "+00:00".toList

-- ### An ISO-8601 parser (spec side: "parseable by any standard date-time parser")

def parseDigit (c : Char) : Option Nat :=
  if c.toNat < 48 ∨ 57 < c.toNat then none else some (c.toNat - 48)

def parse2 : List Char → Option (Nat × List Char)
  | c1 :: c2 :: rest => do
    let d1 ← parseDigit c1
    let d2 ← parseDigit c2
    pure (d1 * 10 + d2, rest)
  | _ => none

def parse4 (s : List Char) : Option (Nat × List Char) := do
  let (h, s1) ← parse2 s
  let (l, s2) ← parse2 s1
  pure (h * 100 + l, s2)

def parse6 (s : List Char) : Option (Nat × List Char) := do
  let (h, s1) ← parse2 s
  let (m, s2) ← parse2 s1
  let (l, s3) ← parse2 s2
  pure (h * 10000 + m * 100 + l, s3)

def expectChar (c : Char) : List Char → Option (List Char)
  | d :: rest => if d = c then some rest else none
  | [] => none

/-- Optional fractional-seconds field of an ISO-8601 timestamp. -/
def parseFraction (s : List Char) : Option (Nat × List Char) :=
  match s with
  | '.' :: rest => parse6 rest
  | _ => some (0, s)

/-- Calendar-date part `YYYY-MM-DD` of an ISO-8601 timestamp. -/
def parseYMD (s : List Char) : Option (Nat × Nat × Nat × List Char) := do
  let (y, s) ← parse4 s
  let s ← expectChar '-' s
  let (mo, s) ← parse2 s
  let s ← expectChar '-' s
  let (dy, s) ← parse2 s
  pure (y, mo, dy, s)

/-- Time-of-day part `HH:MM:SS` of an ISO-8601 timestamp. -/
def parseHMS (s : List Char) : Option (Nat × Nat × Nat × List Char) := do
  let (ho, s) ← parse2 s
  let s ← expectChar ':' s
  let (mi, s) ← parse2 s
  let s ← expectChar ':' s
  let (se, s) ← parse2 s
  pure (ho, mi, se, s)

/-- Trailing UTC offset `+00:00` followed by end of input. -/
def parseZone (s : List Char) : Option Unit := do
  let s ← expectChar '+' s
  let (zh, s) ← parse2 s
  let s ← expectChar ':' s
  let (zm, s) ← parse2 s
  if zh = 0 ∧ zm = 0 ∧ s = [] then pure () else none

/-- Modelled from the spec: a standard ISO-8601 date-time parser in the style
of `datetime.fromisoformat`, against which parseability of the produced
timestamps is stated. -/
def parseIsoUTC (s : List Char) : Option PyDateTime := do
  let (y, mo, dy, s) ← parseYMD s
  let s ← expectChar 'T' s
  let (ho, mi, se, s) ← parseHMS s
  let (us, s) ← parseFraction s
  let _ ← parseZone s
  pure ⟨y, mo, dy, ho, mi, se, us⟩

-- ### Round-trip: the parser inverts the formatter

theorem parseDigit_digitChar (d : Nat) (h : d < 10) :
    parseDigit (digitChar d) = some d := by
  interval_cases d <;> rfl

theorem parse2_pad2 (n : Nat) (h : n < 100) (rest : List Char) :
    parse2 (pad2 n ++ rest) = some (n, rest) := by
  have h1 : n / 10 < 10 := by omega
  have h2 : n % 10 < 10 := by omega
  simp only [pad2, List.cons_append, List.nil_append, parse2,
    parseDigit_digitChar _ h1, parseDigit_digitChar _ h2, Option.bind_eq_bind,
    Option.some_bind, Option.pure_def, Option.some.injEq, Prod.mk.injEq, and_true]
  omega

theorem pad4_eq_pad2 (n : Nat) : pad4 n = pad2 (n / 100) ++ pad2 (n % 100) := by
  have e1 : n / 100 / 10 = n / 1000 := by omega
  have e3 : n % 100 / 10 = n / 10 % 10 := by omega
  have e4 : n % 100 % 10 = n % 10 := by omega
  simp [pad4, pad2, e1, e3, e4]

theorem parse4_pad4 (n : Nat) (h : n < 10000) (rest : List Char) :
    parse4 (pad4 n ++ rest) = some (n, rest) := by
  rw [pad4_eq_pad2, List.append_assoc]
  simp only [parse4, parse2_pad2 (n / 100) (by omega),
    parse2_pad2 (n % 100) (by omega), Option.bind_eq_bind, Option.some_bind,
    Option.pure_def, Option.some.injEq, Prod.mk.injEq, and_true]
  omega

theorem pad6_eq_pad2 (n : Nat) :
    pad6 n = pad2 (n / 10000) ++ pad2 (n / 100 % 100) ++ pad2 (n % 100) := by
  have e1 : n / 10000 / 10 = n / 100000 := by omega
  have e2 : n / 100 % 100 / 10 = n / 1000 % 10 := by omega
  have e3 : n / 100 % 100 % 10 = n / 100 % 10 := by omega
  have e4 : n % 100 / 10 = n / 10 % 10 := by omega
  have e5 : n % 100 % 10 = n % 10 := by omega
  simp [pad6, pad2, e1, e2, e3, e4, e5]

theorem parse6_pad6 (n : Nat) (h : n < 1000000) (rest : List Char) :
    parse6 (pad6 n ++ rest) = some (n, rest) := by
  rw [pad6_eq_pad2, List.append_assoc, List.append_assoc]
  simp only [parse6, parse2_pad2 (n / 10000) (by omega),
    parse2_pad2 (n / 100 % 100) (by omega), parse2_pad2 (n % 100) (by omega),
    Option.bind_eq_bind, Option.some_bind, Option.pure_def, Option.some.injEq,
    Prod.mk.injEq, and_true]
  omega

theorem parseFraction_dot (s : List Char) : parseFraction ('.' :: s) = parse6 s := rfl

theorem parseFraction_plus (s : List Char) :
    parseFraction ('+' :: s) = some (0, '+' :: s) := rfl

theorem expectChar_self (c : Char) (s : List Char) : expectChar c (c :: s) = some s := by
  simp [expectChar]

theorem parse2_zeros (s : List Char) : parse2 ('0' :: '0' :: s) = some (0, s) := rfl

theorem parseYMD_pads (y mo dy : Nat) (r : List Char) (hy : y < 10000)
    (hmo : mo < 100) (hdy : dy < 100) :
    parseYMD (pad4 y ++ '-' :: (pad2 mo ++ '-' :: (pad2 dy ++ r))) =
      some (y, mo, dy, r) := by
  simp only [parseYMD, parse4_pad4 y hy, Option.bind_eq_bind, Option.some_bind,
    expectChar_self, parse2_pad2 mo hmo, parse2_pad2 dy hdy, Option.pure_def]

theorem parseHMS_pads (ho mi se : Nat) (r : List Char) (hho : ho < 100)
    (hmi : mi < 100) (hse : se < 100) :
    parseHMS (pad2 ho ++ ':' :: (pad2 mi ++ ':' :: (pad2 se ++ r))) =
      some (ho, mi, se, r) := by
  simp only [parseHMS, parse2_pad2 ho hho, Option.bind_eq_bind, Option.some_bind,
    expectChar_self, parse2_pad2 mi hmi, parse2_pad2 se hse, Option.pure_def]

theorem parseZone_offset :
    parseZone ('+' :: '0' :: '0' :: ':' :: '0' :: '0' :: []) = some () := rfl

/-- The ISO-8601 parser inverts `isoformatUTC` on every valid datetime:
the emitted timestamps are machine-parseable, and no information is lost. -/
theorem parseIsoUTC_isoformatUTC (d : PyDateTime) (hv : d.Valid) :
    parseIsoUTC (isoformatUTC d) = some d := by
  obtain ⟨y, mo, dy, ho, mi, se, us⟩ := d
  obtain ⟨hy1, hy2, hm1, hm2, hd1, hd2, hho, hmi, hse, hus⟩ := hv
  simp only at hy1 hy2 hm1 hm2 hd1 hd2 hho hmi hse hus
  have hplus : ("+00:00".toList) = '+' :: '0' :: '0' :: ':' :: '0' :: '0' :: [] := rfl
  by_cases h0 : us = 0
  · subst h0
    simp only [isoformatUTC, if_pos rfl, hplus, List.nil_append, List.cons_append,
      List.append_assoc]
    rw [parseIsoUTC, parseYMD_pads y mo dy _ (by omega) (by omega) (by omega)]
    simp only [Option.bind_eq_bind, Option.some_bind, expectChar_self,
      parseHMS_pads ho mi se _ (by omega) (by omega) (by omega),
      if_true, List.nil_append, parseFraction_plus, parseZone_offset,
      Option.pure_def]
  · simp only [isoformatUTC, if_neg h0, hplus, List.cons_append, List.append_assoc]
    rw [parseIsoUTC, parseYMD_pads y mo dy _ (by omega) (by omega) (by omega)]
    simp only [Option.bind_eq_bind, Option.some_bind, expectChar_self,
      parseHMS_pads ho mi se _ (by omega) (by omega) (by omega),
      parseFraction_dot, parse6_pad6 us (by omega), parseZone_offset,
      Option.pure_def]

-- ### The POST /summaries endpoint

/-- HTTP outcome of `POST /summaries`, as FastAPI surfaces it: a pydantic
`ValidationError` becomes a 422 response, `HTTPException(status_code=500)`
becomes a 500 response, and a returned `SummaryResponse` becomes a 200
response with the `summary` and `timestamp` fields. -/
inductive SummariesResponse where
  | success (summary : List Char) (timestamp : List Char)
  | validationError (msg : String)
  | internalError (detail : List Char)
deriving DecidableEq

/-- HTTP status code of each outcome. -/
def SummariesResponse.status : SummariesResponse → Nat
  | .success _ _ => 200
  | .validationError _ => 422
  | .internalError _ => 500

/-- `create_summary` (`src/main.py:100-140`) composed with `SummaryRequest`
validation.  `now` is the value read by `datetime.now(timezone.utc)` at line
129.  `fault` injects an optional unexpected exception raised inside the
try-block, given by its Python `str(e)` rendering; the except-branch (lines
136-140) turns it into a 500 response whose detail interpolates `str(e)`. -/
def postSummaries (text : List Char) (now : PyDateTime)
    (fault : Option (List Char)) : SummariesResponse :=
  match summaryRequestValidate text with
  | .error msg => .validationError msg
  | .ok t =>
    match fault with
    | some e => .internalError ("Error processing text: ".toList ++ e)
    | none =>
      let words := extract_words t
      let firstWords := get_first_n_words words 10
      let summary := sjoin firstWords
      let timestamp := isoformatUTC now
      .success summary timestamp

/-- The operations of the `create_summary` try-block in source order
(`src/main.py:118-135`). -/
inductive SummaryStep where
  | tokenize      -- line 120: extract_words(request.text)
  | truncate      -- line 123: get_first_n_words(words, n=10)
  | joinWords     -- line 126: " ".join(first_words)
  | readClock     -- line 129: datetime.now(timezone.utc)
  | buildResponse -- line 132: SummaryResponse(...)
deriving DecidableEq

/-- Source order of the try-block operations. -/
def createSummarySteps : List SummaryStep :=
  [.tokenize, .truncate, .joinWords, .readClock, .buildResponse]

/-- `GET /health` handler (`src/main.py:94-97`): returns the constant JSON
object mapping "status" to "ok"; FastAPI wraps a plain dict return in a 200
response.  The handler takes no arguments and reads no state, so the pair
below is its outcome on every request. -/
def health : Nat × List (String × String) :=
  (200, [("status", "ok")])

-- ### The logging middleware

/-- A response as seen by `LoggingMiddleware.dispatch`. -/
structure HttpResponse where
  statusCode : Nat
  headers : List (String × String)
  body : List Char
deriving DecidableEq

/-- Python `f-string` fixed-point formatting with four fractional digits
(the `:.4f` format specifier) for a non-negative value; exact ties, which do
not occur at any input evaluated below, round up here while CPython rounds
them to even. -/
def formatFixed4 (q : ℚ) : List Char :=
  let n : Nat := (⌊q * 10000 + 1 / 2⌋).toNat
  (Nat.repr (n / 10000)).toList ++ '.' :: pad4 (n % 10000)

/-- The log line emitted at `src/middleware.py:43-47`: the literal text
interpolates the path, the execution time via the `:.4f` specifier followed
by the letter `s`, and the status code. -/
def logMessage (path : List Char) (executionTime : ℚ) (statusCode : Nat) :
    List Char :=
  "Path: ".toList ++ path ++ " | Execution Time: ".toList
    ++ formatFixed4 executionTime ++ "s | Status Code: ".toList
    ++ (Nat.repr statusCode).toList

/-- `LoggingMiddleware.dispatch` (`src/middleware.py:26-49`).  `startTime`
and `endTime` are the two `time.time()` readings (in seconds); `callNext` is
the response the downstream stack produced (in this application every
handler failure has already been converted into an error-status response by
the inner exception layer).  Returns the response passed through unchanged,
together with the list of log records emitted. -/
def dispatch (startTime endTime : ℚ) (path : List Char)
    (callNext : HttpResponse) : HttpResponse × List (List Char) :=
  let executionTime := (endTime - startTime) * 1000
  let statusCode := callNext.statusCode
  (callNext, [logMessage path executionTime statusCode])

/-- The operations of `dispatch` in source order (`src/middleware.py:26-49`). -/
inductive DispatchStep where
  | readStartTime   -- line 28: time.time()
  | readPath        -- line 31: request.url.path
  | callDownstream  -- line 34: await call_next(request)
  | readEndTime     -- line 37: time.time()
  | emitLog         -- line 43: logger.info(...)
  | returnResponse  -- line 49: return response
deriving DecidableEq

/-- Source order of the dispatch operations. -/
def dispatchSteps : List DispatchStep :=
  [.readStartTime, .readPath, .callDownstream, .readEndTime, .emitLog,
   .returnResponse]

-- ### Import-time name resolution of the two modules

/-- Names bound at module scope of `src/middleware.py` by the time the
`class LoggingMiddleware` statement executes: the imports of lines 1-5 bind
`time`, `Request`, `BaseHTTPMiddleware`, `Response` and `logging`, and line
9 binds `logger` (line 8 only calls a function).  No Python builtin is named
`ASGIApp` either. -/
def middlewareModuleScope : List String :=
  ["time", "Request", "BaseHTTPMiddleware", "Response", "logging", "logger"]

/-- The names that the parameter type hints of the class body must resolve,
in evaluation order: `ASGIApp` from `def __init__(self, app: ASGIApp)` (line
17), then `Request` from `def dispatch(self, request: Request, call_next)`
(line 26).  Python evaluates such hints eagerly when each `def` statement
executes, because `from __future__ import annotations` is absent. -/
def classBodyHintNames : List String := ["ASGIApp", "Request"]

/-- Result of importing a module. -/
inductive ModuleImport where
  | ok
  | nameError (missing : String)
deriving DecidableEq

/-- Importing `src/middleware.py` evaluates the class body of
`LoggingMiddleware`; the first type-hint name not in scope raises
`NameError`. -/
def importMiddlewareModule : ModuleImport :=
  match classBodyHintNames.find? (fun n => !middlewareModuleScope.contains n) with
  | some n => .nameError n
  | none => .ok

/-- Importing `src/main.py` executes `from middleware import LoggingMiddleware`
(line 15) before anything else of its own can run, so an import-time error in
`middleware` propagates. -/
def importMainModule : ModuleImport :=
  match importMiddlewareModule with
  | .nameError n => .nameError n
  | .ok => .ok

-- ### Validation lemmas

/-- `text.strip()` is empty exactly when every character is whitespace. -/
theorem pyStrip_eq_nil_iff (s : List Char) :
    pyStrip s = [] ↔ ∀ c ∈ s, pyIsSpace c = true := by
  unfold pyStrip
  constructor
  · intro h c hc
    rw [List.reverse_eq_nil_iff] at h
    have h2 : ∀ d ∈ (s.dropWhile pyIsSpace).reverse, pyIsSpace d = true :=
      List.dropWhile_eq_nil_iff.mp h
    have h3 : ∀ d ∈ s.dropWhile pyIsSpace, pyIsSpace d = true :=
      fun d hd => h2 d (List.mem_reverse.mpr hd)
    have hsplit := List.takeWhile_append_dropWhile (p := pyIsSpace) (l := s)
    rw [← hsplit] at hc
    rcases List.mem_append.mp hc with hc | hc
    · exact List.mem_takeWhile_imp hc
    · exact h3 c hc
  · intro hall
    have h1 : s.dropWhile pyIsSpace = [] :=
      List.dropWhile_eq_nil_iff.mpr (fun c hc => hall c hc)
    simp [h1]

/-- A text with a non-whitespace character passes both validation checks. -/
theorem summaryRequestValidate_ok (t : List Char)
    (h : ∃ c ∈ t, pyIsSpace c = false) : summaryRequestValidate t = .ok t := by
  obtain ⟨c, hc, hcs⟩ := h
  have hne : t ≠ [] := fun hnil => by subst hnil; cases hc
  have hlen : ¬ t.length < 1 := by
    cases t with
    | nil => exact absurd rfl hne
    | cons x xs => simp
  unfold summaryRequestValidate
  rw [if_neg hlen, if_neg]
  rw [List.isEmpty_iff, pyStrip_eq_nil_iff]
  intro hall
  have := hall c hc
  rw [hcs] at this
  exact Bool.false_ne_true this

/-- An empty or all-whitespace text fails validation. -/
theorem summaryRequestValidate_error (t : List Char)
    (h : ∀ c ∈ t, pyIsSpace c = true) :
    ∃ m, summaryRequestValidate t = .error m := by
  unfold summaryRequestValidate
  by_cases hl : t.length < 1
  · rw [if_pos hl]; exact ⟨_, rfl⟩
  · rw [if_neg hl, if_pos]
    · exact ⟨_, rfl⟩
    · rw [List.isEmpty_iff]; exact (pyStrip_eq_nil_iff t).mpr h

/-- Taking `min n (length l)` elements is the same as taking `n`. -/
theorem take_min_length {α : Type} (l : List α) (n : Nat) :
    l.take (min n l.length) = l.take n := by
  rcases Nat.le_total n l.length with h | h
  · rw [Nat.min_eq_left h]
  · rw [Nat.min_eq_right h, List.take_length, List.take_of_length_le h]

/-- A suffix of a list is a suffix of anything appended on its left. -/
theorem suffix_append_left {α : Type} (s x l : List α) (h : s <:+ l) :
    s <:+ x ++ l := by
  obtain ⟨p, hp⟩ := h
  exact ⟨x ++ p, by rw [List.append_assoc, hp]⟩

/-- Every timestamp produced by `isoformatUTC` carries the explicit UTC
offset `+00:00` as its suffix. -/
theorem isoformatUTC_has_utc_offset (d : PyDateTime) :
    ("+00:00".toList) <:+ isoformatUTC d := by
  unfold isoformatUTC
  repeat
    first
      | exact List.suffix_refl _
      | apply suffix_append_left

-- ### The claims

/-- C1: for every input text with at least one non-whitespace character,
POST /summaries succeeds and its summary equals the first min(10, n) of the
n whitespace-separated tokens (maximal non-whitespace runs) of the input,
joined by single spaces, in original order and with exact spelling: with at
least 10 tokens it is exactly the first 10, with fewer it is all of them. -/
theorem c1_summary_is_first_min_ten_tokens (t : List Char) (now : PyDateTime)
    (h : ∃ c ∈ t, pyIsSpace c = false) :
    postSummaries t now none =
      .success (sjoin ((specTokens t).take (min 10 (specTokens t).length)))
        (isoformatUTC now)
    ∧ (10 ≤ (specTokens t).length →
        (specTokens t).take (min 10 (specTokens t).length) = (specTokens t).take 10)
    ∧ ((specTokens t).length < 10 →
        (specTokens t).take (min 10 (specTokens t).length) = specTokens t) := by
  have hmain : postSummaries t now none =
      .success (sjoin ((specTokens t).take 10)) (isoformatUTC now) := by
    simp only [postSummaries, summaryRequestValidate_ok t h, get_first_n_words,
      extract_words_eq_pySplit, pySplit_eq_specTokens]
  refine ⟨?_, ?_, ?_⟩
  · rw [hmain, take_min_length]
  · intro hge; rw [Nat.min_eq_left hge]
  · intro hlt; rw [Nat.min_eq_right (Nat.le_of_lt hlt), List.take_length]

/-- Witness for C1 at a concrete 12-token input. -/
theorem c1_summary_is_first_min_ten_tokens_witness :
    postSummaries
        ("one two three four five six seven eight nine ten eleven twelve".toList)
        ⟨2024, 5, 17, 12, 30, 45, 0⟩ none =
      .success ("one two three four five six seven eight nine ten".toList)
        (isoformatUTC ⟨2024, 5, 17, 12, 30, 45, 0⟩) := by
  have h := c1_summary_is_first_min_ten_tokens
    ("one two three four five six seven eight nine ten eleven twelve".toList)
    ⟨2024, 5, 17, 12, 30, 45, 0⟩ (by decide)
  rw [h.1]
  decide

/-- C2: an empty or all-whitespace text is rejected by validation with a 422
response before the handler logic runs (whatever the clock value or injected
fault) and produces no summary; every text with at least one non-whitespace
character passes validation. -/
theorem c2_validation_rejects_blank (t : List Char) (now : PyDateTime)
    (fault : Option (List Char)) :
    ((∀ c ∈ t, pyIsSpace c = true) →
      (postSummaries t now fault).status = 422
      ∧ ∀ s ts, postSummaries t now fault ≠ .success s ts)
    ∧ ((∃ c ∈ t, pyIsSpace c = false) → summaryRequestValidate t = .ok t) := by
  constructor
  · intro hall
    obtain ⟨m, hm⟩ := summaryRequestValidate_error t hall
    have hmain : postSummaries t now fault = .validationError m := by
      simp only [postSummaries, hm]
    rw [hmain]
    exact ⟨rfl, fun s ts hs => SummariesResponse.noConfusion hs⟩
  · exact summaryRequestValidate_ok t

/-- Witness for C2: whitespace-only input gets a 422, "hi" passes. -/
theorem c2_validation_rejects_blank_witness :
    (postSummaries ("  \t\n ".toList) ⟨2024, 5, 17, 12, 30, 45, 0⟩ none).status = 422
    ∧ summaryRequestValidate ("hi".toList) = .ok ("hi".toList) :=
  ⟨((c2_validation_rejects_blank ("  \t\n ".toList) ⟨2024, 5, 17, 12, 30, 45, 0⟩
      none).1 (by decide)).1,
   (c2_validation_rejects_blank ("hi".toList) ⟨2024, 5, 17, 12, 30, 45, 0⟩
      none).2 (by decide)⟩

/-- C3 counterexample: at the valid request "hello" with an injected fault
whose str() reads "KeyError: secret-internal", the 500 response detail
embeds the exception text verbatim (it is a suffix of the detail), refuting
the claim that the text of the underlying exception does not appear in the
response body. -/
theorem c3_counterexample_fault_text_in_detail :
    (postSummaries ("hello".toList) ⟨2024, 5, 17, 12, 30, 45, 0⟩
        (some ("KeyError: secret-internal".toList))).status = 500
    ∧ postSummaries ("hello".toList) ⟨2024, 5, 17, 12, 30, 45, 0⟩
        (some ("KeyError: secret-internal".toList)) =
      .internalError ("Error processing text: KeyError: secret-internal".toList)
    ∧ ("KeyError: secret-internal".toList) <:+
        ("Error processing text: KeyError: secret-internal".toList) := by
  refine ⟨by decide, by decide, ⟨"Error processing text: ".toList, by decide⟩⟩

/-- C3 amended: every unexpected fault during processing of a valid request
yields a 5xx (500) response, but its message is not generic: the detail is
the string "Error processing text: " followed by the exception's own str(),
so the underlying exception text appears in the response body. -/
theorem c3_amended_500_detail_embeds_fault (t e : List Char) (now : PyDateTime)
    (h : summaryRequestValidate t = .ok t) :
    postSummaries t now (some e) =
      .internalError ("Error processing text: ".toList ++ e)
    ∧ (postSummaries t now (some e)).status = 500
    ∧ e <:+ ("Error processing text: ".toList ++ e) := by
  have hmain : postSummaries t now (some e) =
      .internalError ("Error processing text: ".toList ++ e) := by
    simp only [postSummaries, h]
  exact ⟨hmain, by rw [hmain]; rfl, ⟨_, rfl⟩⟩

/-- Witness for the amended C3 at a concrete request and fault. -/
theorem c3_amended_500_detail_embeds_fault_witness :
    postSummaries ("hi".toList) ⟨2024, 5, 17, 12, 30, 45, 0⟩
        (some ("boom".toList)) =
      .internalError ("Error processing text: boom".toList) := by
  have h := c3_amended_500_detail_embeds_fault ("hi".toList) ("boom".toList)
    ⟨2024, 5, 17, 12, 30, 45, 0⟩ (by rfl)
  rw [h.1]
  decide

/-- C4: the summarization pipeline (split on whitespace, take the first 10
tokens, rejoin with single spaces) is idempotent: applied to its own output
it returns that output unchanged, for every input text. -/
theorem c4_summarize_idempotent (t : List Char) :
    summarize (summarize t) = summarize t :=
  summarize_idem t

/-- C5: the logging middleware returns the downstream response unaltered
(same status code, headers and body, whatever the status — success or
failure) and emits exactly one log record, and in the source order of
dispatch the log is emitted after the downstream call has produced the
response. -/
theorem c5_dispatch_transparent (startTime endTime : ℚ) (path : List Char)
    (callNext : HttpResponse) :
    (dispatch startTime endTime path callNext).1 = callNext
    ∧ (dispatch startTime endTime path callNext).2.length = 1
    ∧ dispatchSteps.indexOf .callDownstream < dispatchSteps.indexOf .emitLog :=
  ⟨rfl, rfl, by decide⟩

/-- C6: the value logged by dispatch is the elapsed seconds times 1000, i.e.
milliseconds — here 0.5 s elapsed yields 500.0000 — but the emitted log line
suffixes it with the letter s, labelling the millisecond quantity as
seconds, contrary to the code's own comment at src/middleware.py:37. -/
theorem c6_log_labels_milliseconds_with_s :
    (dispatch 0 (1 / 2) ("/summaries".toList) ⟨200, [], []⟩).2 =
      ["Path: /summaries | Execution Time: 500.0000s | Status Code: 200".toList] := by
  have hfloor : ⌊((1 / 2 : ℚ) - 0) * 1000 * 10000 + 1 / 2⌋ = 5000000 := by
    norm_num
  show [logMessage ("/summaries".toList) (((1 / 2 : ℚ) - 0) * 1000) 200] = _
  rw [logMessage, formatFixed4]
  rw [hfloor]
  decide

/-- C7: in every successful response the timestamp is the ISO-8601 rendering
(with the explicit UTC offset "+00:00" as suffix) of the wall-clock value
read by the handler; in the source order of the try-block the clock is read
after tokenization; and the rendering is parseable by the ISO-8601 parser,
round-tripping to the exact datetime. -/
theorem c7_timestamp_iso_utc_after_tokenization (t : List Char)
    (now : PyDateTime) (h : ∃ c ∈ t, pyIsSpace c = false)
    (hv : now.Valid) :
    (∃ s, postSummaries t now none = .success s (isoformatUTC now))
    ∧ parseIsoUTC (isoformatUTC now) = some now
    ∧ ("+00:00".toList) <:+ isoformatUTC now
    ∧ createSummarySteps.indexOf .tokenize <
        createSummarySteps.indexOf .readClock := by
  refine ⟨⟨sjoin (get_first_n_words (extract_words t) 10), ?_⟩,
    parseIsoUTC_isoformatUTC now hv, isoformatUTC_has_utc_offset now, by decide⟩
  simp only [postSummaries, summaryRequestValidate_ok t h]

/-- Witness for C7 at a concrete request and clock value. -/
theorem c7_timestamp_iso_utc_after_tokenization_witness :
    parseIsoUTC (isoformatUTC ⟨2024, 5, 17, 12, 30, 45, 123456⟩) =
      some ⟨2024, 5, 17, 12, 30, 45, 123456⟩ :=
  (c7_timestamp_iso_utc_after_tokenization ("hello".toList)
    ⟨2024, 5, 17, 12, 30, 45, 123456⟩ (by decide) (by decide)).2.1

/-- C8: GET /health always returns status 200 with the body mapping "status"
to "ok"; the handler takes no input and reads no state, so this outcome is
the same for every request, independent of any other request. -/
theorem c8_health_constant_ok : health = (200, [("status", "ok")]) := rfl

/-- C9: the type hint `ASGIApp` in `LoggingMiddleware.__init__` is resolved
eagerly while the class body is evaluated, no name `ASGIApp` is in scope in
middleware.py, so importing the module raises NameError — and main.py, which
imports middleware first, cannot be loaded either. -/
theorem c9_import_raises_name_error :
    importMiddlewareModule = .nameError "ASGIApp"
    ∧ importMainModule = .nameError "ASGIApp"
    ∧ ("ASGIApp" ∈ middlewareModuleScope) = False := by
  refine ⟨by decide, by decide, by simp [middlewareModuleScope]⟩

/-- C10: for every text that passes validation, the try-block of
create_summary is a composition of total operations (split, slice, join,
timestamp formatting), so the handler returns a 200 success and the 500
except-branch is never taken. -/
theorem c10_no_internal_error_on_valid_input (t : List Char)
    (now : PyDateTime) (h : ∃ c ∈ t, pyIsSpace c = false) :
    (∃ s ts, postSummaries t now none = .success s ts)
    ∧ (postSummaries t now none).status = 200
    ∧ ∀ d, postSummaries t now none ≠ .internalError d := by
  have hmain : postSummaries t now none =
      .success (sjoin (get_first_n_words (extract_words t) 10))
        (isoformatUTC now) := by
    simp only [postSummaries, summaryRequestValidate_ok t h]
  exact ⟨⟨_, _, hmain⟩, by rw [hmain]; rfl,
    fun d hd => by rw [hmain] at hd; exact SummariesResponse.noConfusion hd⟩

/-- Witness for C10 at a concrete request. -/
theorem c10_no_internal_error_on_valid_input_witness :
    (postSummaries ("hello world".toList) ⟨2024, 5, 17, 12, 30, 45, 0⟩
      none).status = 200 :=
  (c10_no_internal_error_on_valid_input ("hello world".toList)
    ⟨2024, 5, 17, 12, 30, 45, 0⟩ (by decide)).2.1
